import Mathlib

/-!
Verification of the metabolite-analysis mapping core
(`src/metabolite_mapper.py`, `src/smiles_utils.py`).

A pandas `DataFrame` is modelled as a `Table`: an ordered list of column
names together with an ordered list of rows; a row associates column names
to cells, and a cell is `Option Value` with `none` playing the role of a
missing value (`NaN` / `None`, the things `pd.isna` recognises).  Scalar
cell values are strings or integers; the claims under study never depend
on float formatting, so numbers are carried as `Int`.

Functions that in Python mutate only a local `df.copy()` are embedded as
pure functions that return the pair (state of the table argument after the
call, returned value): the first component makes the non-mutation of the
argument an explicit, checkable output of the embedding rather than an
artefact of purity.

Success rates are computed in exact rational arithmetic; the floating
percentages of the code are exactly these rationals for the table sizes
at hand.
-/

/-- A scalar cell value of a spreadsheet table: a string or a number. -/
inductive Value where
  | vStr (s : String)
  | vNum (n : Int)
deriving DecidableEq, Repr

/-- Python's `str(x)` coercion on a scalar value. -/
def Value.toStr : Value → String
  | .vStr s => s
  | .vNum n => toString n

/-- A cell of a table; `none` is a missing value (`NaN`/`None`). -/
abbrev Cell := Option Value

/-- A row: an association of column names to cells.  A name absent from
the association reads as a missing value. -/
abbrev Row := List (String × Cell)

/-- Read the cell of column `c` in row `r` (first binding wins). -/
def getCell : Row → String → Cell
  | [], _ => none
  | p :: r, c => if p.1 = c then p.2 else getCell r c

/-- Write the cell of column `c` in row `r`, appending the binding when the
column is not yet present (pandas adds new columns at the end). -/
def setCell : Row → String → Cell → Row
  | [], c, v => [(c, v)]
  | p :: r, c, v => if p.1 = c then (c, v) :: r else p :: setCell r c v

/-- One spreadsheet sheet: ordered column names and ordered rows. -/
structure Table where
  cols : List String
  rows : List Row
deriving DecidableEq, Repr

/-- Column assignment `df[c] = ...` applied row by row: every row gets a
cell for `c`, and `c` is appended to the column list when new. -/
def Table.setColumn (t : Table) (c : String) (f : Row → Cell) : Table :=
  { cols := if c ∈ t.cols then t.cols else t.cols ++ [c],
    rows := t.rows.map (fun r => setCell r c (f r)) }

/-- Python's `str(x).strip()`: drop leading and trailing whitespace. -/
def pyStrip (s : String) : String :=
  ⟨(((s.data.dropWhile Char.isWhitespace).reverse).dropWhile Char.isWhitespace).reverse⟩

/-- `df.copy()`: a deep copy, equal to and independent of the original. -/
def Table.copy (t : Table) : Table := t

/-- Lookup in a Python dict modelled as an insertion-ordered association
list: the first binding of the key, if any. -/
def lookupFM : List (String × String) → String → Option String
  | [], _ => none
  | p :: m, k => if p.1 = k then some p.2 else lookupFM m k

/-- Loop body of `create_formula_metabolite_mapping`
(src/metabolite_mapper.py lines 55-75): skip the row when formula or
name is missing (`pd.isna`) or trims to empty, otherwise insert the
trimmed pair only when the formula key is not yet present. -/
def refStep (fc mc : String) (m : List (String × String)) (r : Row) :
    List (String × String) :=
  match getCell r fc, getCell r mc with
  | some f, some met =>
    let fs := pyStrip f.toStr
    let ms := pyStrip met.toStr
    if fs = "" ∨ ms = "" then m
    else if lookupFM m fs = none then m ++ [(fs, ms)] else m
  | _, _ => m

/-- The whole row loop of `create_formula_metabolite_mapping`. -/
def buildMapping (rows : List Row) (fc mc : String) : List (String × String) :=
  rows.foldl (refStep fc mc) []

/-- `create_formula_metabolite_mapping` (src/metabolite_mapper.py lines
19-78): `ValueError` on a missing column is modelled as `Except.error`. -/
def create_formula_metabolite_mapping (reference_df : Table)
    (formula_column metabolite_column : String) :
    Except String (List (String × String)) :=
  if formula_column ∉ reference_df.cols then
    .error ("Formula column " ++ formula_column ++ " not found in reference DataFrame")
  else if metabolite_column ∉ reference_df.cols then
    .error ("Metabolite column " ++ metabolite_column ++ " not found in reference DataFrame")
  else
    .ok (buildMapping reference_df.rows formula_column metabolite_column)

/-- The valid reference entry a single row contributes, if any: the same
skip conditions as `refStep`, without the duplicate check. -/
def refEntry (fc mc : String) (r : Row) : Option (String × String) :=
  match getCell r fc, getCell r mc with
  | some f, some met =>
    let fs := pyStrip f.toStr
    let ms := pyStrip met.toStr
    if fs = "" ∨ ms = "" then none else some (fs, ms)
  | _, _ => none

/-- Element action of pandas `Series.map(mapping)` with a dict argument:
a cell maps to the dict value of its key when present, and to `NaN`
(here `none`) when the cell is missing or its value is not a key.  The
dict built by the reference mapper only has string keys, so numeric
cells never match. -/
def mapCell (mapping : List (String × String)) (c : Cell) : Cell :=
  match c with
  | some (.vStr s) => (lookupFM mapping s).map Value.vStr
  | _ => none

/-- The `NaN` a pandas dict-map writes for a key with no entry: a missing
value, distinct from every present value (in particular from an empty
string). -/
def noValue : Cell := none

/-- Lines 111-114 of src/metabolite_mapper.py: copy the target and set
`new_metabolite_column` to the mapped formula column. -/
def applyTransform (target_df : Table) (mapping : List (String × String))
    (formula_column new_metabolite_column : String) : Table :=
  (Table.copy target_df).setColumn new_metabolite_column
    (fun r => mapCell mapping (getCell r formula_column))

/-- `apply_metabolite_mapping` (src/metabolite_mapper.py lines 81-121).
The returned pair is (state of `target_df` after the call, returned value):
the code mutates only its local copy, so the first component is the
argument itself on every path.  `ValueError` on a missing formula column
is `Except.error`.  The logging step of lines 117-120 computes the match
counts and percentage; it cannot raise (see `applyLogPercent`) and does
not affect the returned table. -/
def apply_metabolite_mapping (target_df : Table)
    (mapping : List (String × String))
    (formula_column new_metabolite_column : String) :
    Table × Except String Table :=
  if formula_column ∉ target_df.cols then
    (target_df,
     .error ("Formula column " ++ formula_column ++ " not found in target DataFrame"))
  else
    (target_df, .ok (applyTransform target_df mapping formula_column new_metabolite_column))

/-- Count of non-missing cells of column `c`: `df[c].notna().sum()`. -/
def notnaCount (t : Table) (c : String) : Nat :=
  t.rows.countP (fun r => (getCell r c).isSome)

/-- The percentage `matches / total * 100` of line 120 of
src/metabolite_mapper.py.  `matches` there is a NumPy integer scalar
(pandas `Series.sum` returns one), and NumPy scalar true division by
zero does not raise `ZeroDivisionError`: it emits a `RuntimeWarning` and
yields `NaN`, modelled as `none`; a nonzero total yields the exact
rational percentage. -/
def npPercent (matchCount total : Nat) : Option ℚ :=
  if total = 0 then none else some ((matchCount : ℚ) / (total : ℚ) * 100)

/-- The percentage value logged by `apply_metabolite_mapping` at lines
117-120: matches and total are read off the result table. -/
def applyLogPercent (target_df : Table) (mapping : List (String × String))
    (formula_column new_metabolite_column : String) : Option ℚ :=
  npPercent
    (notnaCount (applyTransform target_df mapping formula_column new_metabolite_column)
      new_metabolite_column)
    (applyTransform target_df mapping formula_column new_metabolite_column).rows.length

/-- Outcome of the external RDKit collaborators on one input string:
`mol f` models `Chem.MolFromSmiles` returning a molecule whose
`rdMolDescriptors.CalcMolFormula` is the string `f`; `noStructure`
models `MolFromSmiles` returning `None`; `raises` models an exception
escaping the RDKit calls. -/
inductive ParseOutcome where
  | mol (formula : String)
  | noStructure
  | raises
deriving DecidableEq, Repr

/-- `smiles_to_formula` (src/smiles_utils.py lines 21-67), parametrised
by the external descriptor-parsing collaborator.  Missing input
(`pd.isna`/`None`) and empty-after-strip input return the literal
`Error`; an unparseable structure returns the literal `Invalid`; an
exception from the collaborator is caught by the enclosing `try` and
returns `Error`; a parsed molecule returns its formula unmodified. -/
def smiles_to_formula (parse : String → ParseOutcome) (smiles : Cell) : String :=
  match smiles with
  | none => "Error"
  | some v =>
    let s := pyStrip v.toStr
    if s = "" then "Error"
    else
      match parse s with
      | .mol formula => formula
      | .noStructure => "Invalid"
      | .raises => "Error"

/-- `add_formula_column` (src/smiles_utils.py lines 87-119): copy the
input and set `formula_column` to the per-row `smiles_to_formula`
string.  As for the applier, the pair is (state of `df` after the call,
returned value). -/
def add_formula_column (parse : String → ParseOutcome) (df : Table)
    (smiles_column formula_column : String) : Table × Except String Table :=
  if smiles_column ∉ df.cols then
    (df, .error ("Column " ++ smiles_column ++ " not found in DataFrame"))
  else
    (df, .ok ((Table.copy df).setColumn formula_column
      (fun r => some (Value.vStr (smiles_to_formula parse (getCell r smiles_column))))))

/-- Count of rows whose cell in column `c` equals the literal string
`lit`: pandas `(df[c] == lit).sum()`.  A missing cell and a numeric cell
compare unequal to a string literal. -/
def countLit (t : Table) (c lit : String) : Nat :=
  t.rows.countP (fun r => decide (getCell r c = some (Value.vStr lit)))

/-- Statistics record of `get_formula_statistics`. -/
structure FormulaStats where
  total : Nat
  valid : Nat
  invalid : Nat
  error : Nat
  success_rate : ℚ
deriving DecidableEq, Repr

/-- `get_formula_statistics` (src/smiles_utils.py lines 176-210):
`invalid` counts cells equal to the literal `Invalid`, `error` counts
cells equal to the literal `Error`, `valid` is the remainder, and the
success rate is `valid / total * 100` guarded to `0` on an empty
table. -/
def get_formula_statistics (df : Table) (formula_column : String) :
    Except String FormulaStats :=
  if formula_column ∉ df.cols then
    .error ("Column " ++ formula_column ++ " not found in DataFrame")
  else
    let total := df.rows.length
    let invalid_count := countLit df formula_column "Invalid"
    let error_count := countLit df formula_column "Error"
    let valid_count := total - invalid_count - error_count
    .ok ⟨total, valid_count, invalid_count, error_count,
      if 0 < total then (valid_count : ℚ) / (total : ℚ) * 100 else 0⟩

/-- Statistics record of `get_mapping_statistics`. -/
structure MappingStats where
  total : Nat
  matched : Nat
  unmatched : Nat
  success_rate : ℚ
deriving DecidableEq, Repr

/-- `get_mapping_statistics` (src/metabolite_mapper.py lines 124-156):
`matched` counts non-missing name cells, `unmatched` is the remainder,
and the success rate is `matched / total * 100` guarded to `0` on an
empty table. -/
def get_mapping_statistics (target_df : Table) (metabolite_column : String) :
    Except String MappingStats :=
  if metabolite_column ∉ target_df.cols then
    .error ("Metabolite column " ++ metabolite_column ++ " not found in DataFrame")
  else
    let total := target_df.rows.length
    let matched := notnaCount target_df metabolite_column
    .ok ⟨total, matched, total - matched,
      if 0 < total then (matched : ℚ) / (total : ℚ) * 100 else 0⟩

/-- The formula value a row contributes to the unmatched mask of
`find_unmatched_formulas`: its formula cell, when the name cell is
missing (`isna`) and the formula cell is present (`notna`). -/
def unmatchedEntry (fc mc : String) (r : Row) : Option Value :=
  match getCell r mc, getCell r fc with
  | none, some f => some f
  | _, _ => none

/-- First-occurrence deduplication with an accumulator of already seen
values: the order-preserving behaviour of pandas `Series.unique()`. -/
def dedupAux : List Value → List Value → List Value
  | [], _ => []
  | v :: l, seen => if v ∈ seen then dedupAux l seen else v :: dedupAux l (v :: seen)

/-- pandas `Series.unique().tolist()`: values in order of first
appearance, each once. -/
def dedupFirst (l : List Value) : List Value := dedupAux l []

/-- `find_unmatched_formulas` (src/metabolite_mapper.py lines 159-193):
the deduplicated formula values of the rows whose name cell is missing
and whose formula cell is present. -/
def find_unmatched_formulas (target_df : Table)
    (formula_column metabolite_column : String) : Except String (List Value) :=
  if formula_column ∉ target_df.cols then
    .error ("Formula column " ++ formula_column ++ " not found in DataFrame")
  else if metabolite_column ∉ target_df.cols then
    .error ("Metabolite column " ++ metabolite_column ++ " not found in DataFrame")
  else
    .ok (dedupFirst (target_df.rows.filterMap
      (unmatchedEntry formula_column metabolite_column)))

/-- Index of the first occurrence of `v` in a list (list length when
absent): used to state order-of-first-appearance properties. -/
def firstIdx (v : Value) : List Value → Nat
  | [] => 0
  | w :: l => if w = v then 0 else firstIdx v l + 1

/-- A two-row reference table bearing the same formula twice, with
different names: the duplicate-handling example used by the C1 witness. -/
def refTableEx : Table :=
  ⟨["chemical_formula", "Metabolite name"],
   [[("chemical_formula", some (Value.vStr "C2H6O")),
     ("Metabolite name", some (Value.vStr "Ethanol"))],
    [("chemical_formula", some (Value.vStr "C2H6O")),
     ("Metabolite name", some (Value.vStr "EthanolLater"))]]⟩

/-- A two-row target table with one mappable and one unmappable formula:
the example of the spec's section 8, used by witnesses. -/
def targetTableEx : Table :=
  ⟨["Formula"],
   [[("Formula", some (Value.vStr "C2H6O"))],
    [("Formula", some (Value.vStr "C10H16N2"))]]⟩

/-- A target table after mapping, with one matched and one unmatched row:
used by the C5 witness. -/
def unmatchedTableEx : Table :=
  ⟨["Formula", "Metabolite name"],
   [[("Formula", some (Value.vStr "C2H6O")),
     ("Metabolite name", some (Value.vStr "Ethanol"))],
    [("Formula", some (Value.vStr "C10H16N2"))]]⟩

/-- A four-row formula column with one of each sentinel: the docstring
example of `get_formula_statistics`, used by witnesses. -/
def statsTableEx : Table :=
  ⟨["Formula"],
   [[("Formula", some (Value.vStr "C2H6O"))],
    [("Formula", some (Value.vStr "Invalid"))],
    [("Formula", some (Value.vStr "Error"))],
    [("Formula", some (Value.vStr "CH4"))]]⟩

/-!  Theorems.  -/

theorem lookupFM_append_some {a : List (String × String)} {k v : String}
    (b : List (String × String)) (h : lookupFM a k = some v) :
    lookupFM (a ++ b) k = some v := by
  induction a with
  | nil => simp [lookupFM] at h
  | cons p a ih =>
    by_cases hpk : p.1 = k
    · simp only [lookupFM, List.cons_append, if_pos hpk] at h ⊢
      exact h
    · simp only [lookupFM, List.cons_append, if_neg hpk] at h ⊢
      exact ih h

theorem lookupFM_append_none {a : List (String × String)} {k : String}
    (b : List (String × String)) (h : lookupFM a k = none) :
    lookupFM (a ++ b) k = lookupFM b k := by
  induction a with
  | nil => simp [lookupFM]
  | cons p a ih =>
    by_cases hpk : p.1 = k
    · simp only [lookupFM, if_pos hpk] at h
      exact absurd h (by simp)
    · simp only [lookupFM, List.cons_append, if_neg hpk] at h ⊢
      exact ih h

theorem refStep_of_entry_none {fc mc : String} {r : Row}
    (m : List (String × String)) (h : refEntry fc mc r = none) :
    refStep fc mc m r = m := by
  cases hf : getCell r fc with
  | none => simp [refStep, hf]
  | some f =>
    cases hm : getCell r mc with
    | none => simp [refStep, hf, hm]
    | some met =>
      simp only [refEntry, hf, hm] at h
      simp only [refStep, hf, hm]
      by_cases hcond : pyStrip f.toStr = "" ∨ pyStrip met.toStr = ""
      · simp [hcond]
      · simp [hcond] at h

theorem refStep_of_entry_some {fc mc : String} {r : Row} {fs ms : String}
    (m : List (String × String)) (h : refEntry fc mc r = some (fs, ms)) :
    refStep fc mc m r = if lookupFM m fs = none then m ++ [(fs, ms)] else m := by
  cases hf : getCell r fc with
  | none => simp [refEntry, hf] at h
  | some f =>
    cases hm : getCell r mc with
    | none => simp [refEntry, hf, hm] at h
    | some met =>
      simp only [refEntry, hf, hm] at h
      simp only [refStep, hf, hm]
      by_cases hcond : pyStrip f.toStr = "" ∨ pyStrip met.toStr = ""
      · simp [hcond] at h
      · simp only [hcond, if_neg, ite_false, if_false] at h ⊢
        simp only [Option.some_inj, Prod.mk.injEq] at h
        rw [h.1, h.2]

theorem foldl_refStep_some (fc mc : String) (rows : List Row)
    (acc : List (String × String)) (k v : String) (h : lookupFM acc k = some v) :
    lookupFM (rows.foldl (refStep fc mc) acc) k = some v := by
  induction rows generalizing acc with
  | nil => simpa using h
  | cons r rest ih =>
    simp only [List.foldl_cons]
    apply ih
    cases he : refEntry fc mc r with
    | none =>
      rw [refStep_of_entry_none acc he]
      exact h
    | some p =>
      obtain ⟨fs, ms⟩ := p
      rw [refStep_of_entry_some acc he]
      split
      · exact lookupFM_append_some _ h
      · exact h

theorem foldl_refStep_none (fc mc : String) (rows : List Row)
    (acc : List (String × String)) (k : String) (h : lookupFM acc k = none) :
    lookupFM (rows.foldl (refStep fc mc) acc) k =
      lookupFM (rows.filterMap (refEntry fc mc)) k := by
  induction rows generalizing acc with
  | nil =>
    simp only [List.foldl_nil, List.filterMap_nil, lookupFM]
    exact h
  | cons r rest ih =>
    simp only [List.foldl_cons, List.filterMap_cons]
    cases he : refEntry fc mc r with
    | none =>
      rw [refStep_of_entry_none acc he]
      exact ih acc h
    | some p =>
      obtain ⟨fs, ms⟩ := p
      rw [refStep_of_entry_some acc he]
      by_cases hacc : lookupFM acc fs = none
      · rw [if_pos hacc]
        by_cases hk : fs = k
        · subst hk
          have h2 : lookupFM (acc ++ [(fs, ms)]) fs = some ms := by
            rw [lookupFM_append_none _ hacc]
            simp [lookupFM]
          rw [foldl_refStep_some fc mc rest _ _ _ h2]
          simp [lookupFM]
        · have h2 : lookupFM (acc ++ [(fs, ms)]) k = none := by
            rw [lookupFM_append_none _ h]
            simp [lookupFM, hk]
          rw [ih _ h2]
          simp [lookupFM, hk]
      · have hk : fs ≠ k := by
          intro e
          subst e
          rw [h] at hacc
          exact hacc rfl
        rw [if_neg hacc, ih acc h]
        simp [lookupFM, hk]

theorem getCell_setCell_self (r : Row) (c : String) (v : Cell) :
    getCell (setCell r c v) c = v := by
  induction r with
  | nil => simp [setCell, getCell]
  | cons p r ih =>
    by_cases hpc : p.1 = c
    · simp [setCell, getCell, hpc]
    · simp [setCell, getCell, hpc, ih]

theorem getCell_setCell_ne (r : Row) {c c' : String} (v : Cell) (h : c' ≠ c) :
    getCell (setCell r c v) c' = getCell r c' := by
  induction r with
  | nil => simp [setCell, getCell, Ne.symm h]
  | cons p r ih =>
    by_cases hpc : p.1 = c
    · simp [setCell, getCell, hpc, Ne.symm h]
    · simp [setCell, getCell, hpc, ih]

theorem setCell_setCell (r : Row) (c : String) (v v' : Cell) :
    setCell (setCell r c v) c v' = setCell r c v' := by
  induction r with
  | nil => simp [setCell]
  | cons p r ih =>
    by_cases hpc : p.1 = c
    · simp [setCell, hpc]
    · simp [setCell, hpc, ih]

/-- C1: for every reference table containing the named formula and name
columns, `create_formula_metabolite_mapping` succeeds and its map answers
every key by the first row, in table order, that passes the skip checks
(formula and name present and non-empty after trimming) and bears that
trimmed formula: the lookup of the built map coincides with the
first-occurrence lookup over the table's valid (formula, name) entries,
so later rows with the same formula are skipped, never overwritten. -/
theorem create_mapping_first_occurrence_wins (t : Table) (fc mc k : String)
    (hf : fc ∈ t.cols) (hm : mc ∈ t.cols) :
    ∃ m, create_formula_metabolite_mapping t fc mc = .ok m ∧
      lookupFM m k = lookupFM (t.rows.filterMap (refEntry fc mc)) k := by
  refine ⟨buildMapping t.rows fc mc, ?_, ?_⟩
  · unfold create_formula_metabolite_mapping
    rw [if_neg (not_not_intro hf), if_neg (not_not_intro hm)]
  · unfold buildMapping
    exact foldl_refStep_none fc mc t.rows [] k rfl

/-- Witness for C1 on a concrete duplicate-bearing reference table. -/
theorem create_mapping_first_occurrence_wins_witness :
    ∃ m, create_formula_metabolite_mapping refTableEx
        "chemical_formula" "Metabolite name" = .ok m ∧
      lookupFM m "C2H6O" =
        lookupFM (refTableEx.rows.filterMap
          (refEntry "chemical_formula" "Metabolite name")) "C2H6O" :=
  create_mapping_first_occurrence_wins refTableEx
    "chemical_formula" "Metabolite name" "C2H6O" (by decide) (by decide)

/-- C2: for every target table containing the formula column and every
formula-to-name map, `apply_metabolite_mapping` succeeds with a table of
the same row count whose output-column cell, row by row, is the map's
value for that row's formula value; a formula with no entry in the map
yields the missing-value marker `noValue`, which differs from a
present-but-empty name. -/
theorem apply_mapping_rowwise_spec (t : Table) (m : List (String × String))
    (fc oc : String) (hf : fc ∈ t.cols) :
    ∃ res, (apply_metabolite_mapping t m fc oc).snd = .ok res ∧
      res.rows.length = t.rows.length ∧
      (∀ i : Nat, res.rows[i]?.map (fun r => getCell r oc) =
        t.rows[i]?.map (fun r => mapCell m (getCell r fc))) ∧
      (∀ s, lookupFM m s = none → mapCell m (some (Value.vStr s)) = noValue) ∧
      noValue ≠ some (Value.vStr "") := by
  refine ⟨applyTransform t m fc oc, ?_, ?_, ?_, ?_, ?_⟩
  · unfold apply_metabolite_mapping
    rw [if_neg (not_not_intro hf)]
  · simp [applyTransform, Table.copy, Table.setColumn]
  · intro i
    simp only [applyTransform, Table.copy, Table.setColumn]
    rw [List.getElem?_map]
    cases h : t.rows[i]? with
    | none => simp
    | some r => simp [getCell_setCell_self]
  · intro s hs
    simp [mapCell, hs, noValue]
  · simp [noValue]

/-- Witness for C2 on the spec's example target table. -/
theorem apply_mapping_rowwise_spec_witness :
    ∃ res, (apply_metabolite_mapping targetTableEx [("C2H6O", "Ethanol")]
        "Formula" "Metabolite name").snd = .ok res ∧
      res.rows.length = targetTableEx.rows.length ∧
      (∀ i : Nat, res.rows[i]?.map (fun r => getCell r "Metabolite name") =
        targetTableEx.rows[i]?.map
          (fun r => mapCell [("C2H6O", "Ethanol")] (getCell r "Formula"))) ∧
      (∀ s, lookupFM [("C2H6O", "Ethanol")] s = none →
        mapCell [("C2H6O", "Ethanol")] (some (Value.vStr s)) = noValue) ∧
      noValue ≠ some (Value.vStr "") :=
  apply_mapping_rowwise_spec targetTableEx [("C2H6O", "Ethanol")]
    "Formula" "Metabolite name" (by decide)

/-- Counterexample to C3: on the empty target table bearing the formula
column, `apply_metabolite_mapping` does not raise and is the identity on
rows: it returns the empty result table with the output column added.
The unguarded `matches/total*100` of line 120 is NumPy scalar division
(`matches` comes from pandas `Series.sum`), which yields `NaN` with a
`RuntimeWarning` instead of raising `ZeroDivisionError`, so no
division-by-zero error is raised before returning, contrary to the
claim. -/
theorem apply_mapping_empty_no_raise :
    (apply_metabolite_mapping ⟨["Formula"], []⟩ [] "Formula" "Metabolite name").snd =
      .ok ⟨["Formula", "Metabolite name"], []⟩ := rfl

/-- C3 amended: the match-percentage computation of the logging step is
indeed unguarded against `total == 0`, but it does not raise: on every
table containing the formula column the call returns a result table, and
on the empty table the logged percentage is the `NaN` produced by NumPy
scalar zero division (modelled by `npPercent` as `none`); the operation
is total over all tables satisfying the column precondition. -/
theorem apply_mapping_total_nan_logged (t : Table) (m : List (String × String))
    (fc oc : String) (hf : fc ∈ t.cols) :
    (∃ res, (apply_metabolite_mapping t m fc oc).snd = .ok res) ∧
      (t.rows = [] → applyLogPercent t m fc oc = none) := by
  constructor
  · refine ⟨applyTransform t m fc oc, ?_⟩
    unfold apply_metabolite_mapping
    rw [if_neg (not_not_intro hf)]
  · intro he
    simp [applyLogPercent, applyTransform, Table.copy, Table.setColumn, he,
      npPercent, notnaCount]

/-- Witness for the amended C3 at the empty table. -/
theorem apply_mapping_total_nan_logged_witness :
    (∃ res, (apply_metabolite_mapping ⟨["Formula"], []⟩ []
        "Formula" "Metabolite name").snd = .ok res) ∧
      ((⟨["Formula"], []⟩ : Table).rows = [] →
        applyLogPercent ⟨["Formula"], []⟩ [] "Formula" "Metabolite name" = none) :=
  apply_mapping_total_nan_logged ⟨["Formula"], []⟩ [] "Formula" "Metabolite name"
    (by decide)

/-- C4: `smiles_to_formula` returns `Error` on missing input and on input
empty after trimming; passes non-empty trimmed input to the external
collaborator and returns `Invalid` when it reports no valid structure,
`Error` when it raises (the exception is caught, never propagated), and
the collaborator's formula string unmodified when parsing succeeds. -/
theorem smiles_to_formula_cases (parse : String → ParseOutcome) (c : Cell) :
    (c = none → smiles_to_formula parse c = "Error") ∧
    (∀ v, c = some v → pyStrip v.toStr = "" → smiles_to_formula parse c = "Error") ∧
    (∀ v, c = some v → pyStrip v.toStr ≠ "" → parse (pyStrip v.toStr) = .noStructure →
      smiles_to_formula parse c = "Invalid") ∧
    (∀ v, c = some v → pyStrip v.toStr ≠ "" → parse (pyStrip v.toStr) = .raises →
      smiles_to_formula parse c = "Error") ∧
    (∀ v f, c = some v → pyStrip v.toStr ≠ "" → parse (pyStrip v.toStr) = .mol f →
      smiles_to_formula parse c = f) := by
  refine ⟨?_, ?_, ?_, ?_, ?_⟩
  · intro h
    subst h
    rfl
  · intro v h he
    subst h
    simp [smiles_to_formula, he]
  · intro v h hne hp
    subst h
    simp [smiles_to_formula, hne, hp]
  · intro v h hne hp
    subst h
    simp [smiles_to_formula, hne, hp]
  · intro v f h hne hp
    subst h
    simp [smiles_to_formula, hne, hp]

/-- Witness for C4: a successful parse of a padded descriptor returns the
collaborator's formula unmodified. -/
theorem smiles_to_formula_cases_witness :
    smiles_to_formula
      (fun s => if s = "CCO" then ParseOutcome.mol "C2H6O" else ParseOutcome.noStructure)
      (some (Value.vStr " CCO ")) = "C2H6O" :=
  (smiles_to_formula_cases
      (fun s => if s = "CCO" then ParseOutcome.mol "C2H6O" else ParseOutcome.noStructure)
      (some (Value.vStr " CCO "))).2.2.2.2
    (Value.vStr " CCO ") "C2H6O" rfl (by decide) (by decide)

theorem mem_dedupAux (l seen : List Value) (v : Value) :
    v ∈ dedupAux l seen ↔ v ∈ l ∧ v ∉ seen := by
  induction l generalizing seen with
  | nil => simp [dedupAux]
  | cons w l ih =>
    by_cases hw : w ∈ seen
    · simp only [dedupAux, if_pos hw, ih, List.mem_cons]
      constructor
      · rintro ⟨hl, hs⟩
        exact ⟨Or.inr hl, hs⟩
      · rintro ⟨e | hl, hs⟩
        · exact absurd (e ▸ hw) hs
        · exact ⟨hl, hs⟩
    · simp only [dedupAux, if_neg hw, List.mem_cons, ih]
      constructor
      · rintro (e | ⟨hl, hs⟩)
        · exact ⟨Or.inl e, e ▸ hw⟩
        · simp only [List.mem_cons, not_or] at hs
          exact ⟨Or.inr hl, hs.2⟩
      · rintro ⟨e | hl, hs⟩
        · exact Or.inl e
        · by_cases e : v = w
          · exact Or.inl e
          · refine Or.inr ⟨hl, ?_⟩
            simp only [List.mem_cons, not_or]
            exact ⟨e, hs⟩

theorem nodup_dedupAux (l seen : List Value) : (dedupAux l seen).Nodup := by
  induction l generalizing seen with
  | nil => simp [dedupAux]
  | cons w l ih =>
    by_cases hw : w ∈ seen
    · simp only [dedupAux, if_pos hw]
      exact ih seen
    · simp only [dedupAux, if_neg hw]
      rw [List.nodup_cons]
      constructor
      · intro hmem
        rw [mem_dedupAux] at hmem
        exact hmem.2 (List.mem_cons_self w seen)
      · exact ih (w :: seen)


theorem firstIdx_dedupAux_mono (l : List Value) : ∀ (seen : List Value) (u v : Value),
    u ∈ dedupAux l seen → v ∈ dedupAux l seen →
    (firstIdx u (dedupAux l seen) ≤ firstIdx v (dedupAux l seen) ↔
      firstIdx u l ≤ firstIdx v l) := by
  induction l with
  | nil =>
    intro seen u v hu _
    simp [dedupAux] at hu
  | cons w l ih =>
    intro seen u v hu hv
    by_cases hw : w ∈ seen
    · simp only [dedupAux, if_pos hw] at hu hv ⊢
      rw [ih seen u v hu hv]
      have hu' := (mem_dedupAux l seen u).mp hu
      have hv' := (mem_dedupAux l seen v).mp hv
      have huw : ¬(w = u) := fun e => hu'.2 (e ▸ hw)
      have hvw : ¬(w = v) := fun e => hv'.2 (e ▸ hw)
      simp only [firstIdx, if_neg huw, if_neg hvw]
      omega
    · simp only [dedupAux, if_neg hw] at hu hv ⊢
      by_cases huw : w = u
      · simp only [firstIdx, if_pos huw]
        simp
      · by_cases hvw : w = v
        · have hu' : u ∈ dedupAux l (w :: seen) := by
            rcases List.mem_cons.mp hu with e | h
            · exact absurd e.symm huw
            · exact h
          simp only [firstIdx, if_pos hvw, if_neg huw]
          omega
        · have hu' : u ∈ dedupAux l (w :: seen) := by
            rcases List.mem_cons.mp hu with e | h
            · exact absurd e.symm huw
            · exact h
          have hv' : v ∈ dedupAux l (w :: seen) := by
            rcases List.mem_cons.mp hv with e | h
            · exact absurd e.symm hvw
            · exact h
          have hih := ih (w :: seen) u v hu' hv'
          simp only [firstIdx, if_neg huw, if_neg hvw]
          omega

theorem unmatchedEntry_eq_some {fc mc : String} {r : Row} {v : Value} :
    unmatchedEntry fc mc r = some v ↔
      getCell r mc = none ∧ getCell r fc = some v := by
  unfold unmatchedEntry
  cases hm : getCell r mc <;> cases hf : getCell r fc <;> simp

/-- Counterexample to C5: a row whose formula cell records the derivation
failure sentinel `Error` and whose name is missing does contribute an
entry — the mask of src/metabolite_mapper.py line 189 only excludes
rows whose formula cell is missing (`notna`), and the sentinel strings
are present values.  The claim requires the empty list here; the code
returns `[Error]`. -/
theorem find_unmatched_includes_sentinel :
    find_unmatched_formulas
        ⟨["Formula", "Metabolite name"],
         [[("Formula", some (Value.vStr "Error"))]]⟩
        "Formula" "Metabolite name" = .ok [Value.vStr "Error"] := rfl

/-- C5 amended: for every table containing both columns,
`find_unmatched_formulas` returns the deduplicated list, in order of
first appearance, of the formula values of rows whose name value is
missing and whose formula value is present; only rows with a missing
formula cell are excluded — rows whose formula cell holds a
derivation-failure sentinel string (`Invalid`/`Error`) are present
values and do contribute entries. -/
theorem find_unmatched_spec (t : Table) (fc mc : String)
    (hf : fc ∈ t.cols) (hm : mc ∈ t.cols) :
    ∃ l, find_unmatched_formulas t fc mc = .ok l ∧
      l.Nodup ∧
      (∀ v, v ∈ l ↔ ∃ r, r ∈ t.rows ∧ getCell r mc = none ∧ getCell r fc = some v) ∧
      (∀ u v, u ∈ l → v ∈ l →
        (firstIdx u l ≤ firstIdx v l ↔
          firstIdx u (t.rows.filterMap (unmatchedEntry fc mc)) ≤
            firstIdx v (t.rows.filterMap (unmatchedEntry fc mc)))) := by
  refine ⟨dedupFirst (t.rows.filterMap (unmatchedEntry fc mc)), ?_, ?_, ?_, ?_⟩
  · unfold find_unmatched_formulas
    rw [if_neg (not_not_intro hf), if_neg (not_not_intro hm)]
  · exact nodup_dedupAux _ _
  · intro v
    unfold dedupFirst
    rw [mem_dedupAux]
    simp [List.mem_filterMap, unmatchedEntry_eq_some]
  · intro u v hu hv
    unfold dedupFirst at hu hv ⊢
    exact firstIdx_dedupAux_mono _ _ u v hu hv

/-- Witness for the amended C5 on a table with one matched and one
unmatched row. -/
theorem find_unmatched_spec_witness :
    ∃ l, find_unmatched_formulas unmatchedTableEx "Formula" "Metabolite name" = .ok l ∧
      l.Nodup ∧
      (∀ v, v ∈ l ↔ ∃ r, r ∈ unmatchedTableEx.rows ∧
        getCell r "Metabolite name" = none ∧ getCell r "Formula" = some v) ∧
      (∀ u v, u ∈ l → v ∈ l →
        (firstIdx u l ≤ firstIdx v l ↔
          firstIdx u (unmatchedTableEx.rows.filterMap
            (unmatchedEntry "Formula" "Metabolite name")) ≤
            firstIdx v (unmatchedTableEx.rows.filterMap
              (unmatchedEntry "Formula" "Metabolite name")))) :=
  find_unmatched_spec unmatchedTableEx "Formula" "Metabolite name"
    (by decide) (by decide)

/-- C6: for every table containing the formula column,
`get_formula_statistics` returns `invalid` = the count of rows whose
formula value is the literal `Invalid`, `error` = the count of rows equal
to the literal `Error`, `valid` = total minus invalid minus error, a
success rate of `valid/total*100` for nonzero total and exactly `0` for
an empty table, and on the empty table the all-zero record. -/
theorem formula_statistics_spec (t : Table) (fc : String) (hf : fc ∈ t.cols) :
    ∃ s, get_formula_statistics t fc = .ok s ∧
      s.total = t.rows.length ∧
      s.invalid = (t.rows.filter
        (fun r => decide (getCell r fc = some (Value.vStr "Invalid")))).length ∧
      s.error = (t.rows.filter
        (fun r => decide (getCell r fc = some (Value.vStr "Error")))).length ∧
      s.valid = s.total - s.invalid - s.error ∧
      (0 < s.total → s.success_rate = (s.valid : ℚ) / (s.total : ℚ) * 100) ∧
      (s.total = 0 → s.success_rate = 0) ∧
      (t.rows = [] → s = ⟨0, 0, 0, 0, 0⟩) := by
  unfold get_formula_statistics
  rw [if_neg (not_not_intro hf)]
  refine ⟨_, rfl, rfl, ?_, ?_, rfl, ?_, ?_, ?_⟩
  · simp [countLit, List.countP_eq_length_filter]
  · simp [countLit, List.countP_eq_length_filter]
  · intro h
    dsimp only
    rw [if_pos h]
  · intro h
    dsimp only at h ⊢
    rw [if_neg (by omega)]
  · intro h
    simp [countLit, h]

/-- Witness for C6 on the four-row docstring example. -/
theorem formula_statistics_spec_witness :
    ∃ s, get_formula_statistics statsTableEx "Formula" = .ok s ∧
      s.total = statsTableEx.rows.length ∧
      s.invalid = (statsTableEx.rows.filter
        (fun r => decide (getCell r "Formula" = some (Value.vStr "Invalid")))).length ∧
      s.error = (statsTableEx.rows.filter
        (fun r => decide (getCell r "Formula" = some (Value.vStr "Error")))).length ∧
      s.valid = s.total - s.invalid - s.error ∧
      (0 < s.total → s.success_rate = (s.valid : ℚ) / (s.total : ℚ) * 100) ∧
      (s.total = 0 → s.success_rate = 0) ∧
      (statsTableEx.rows = [] → s = ⟨0, 0, 0, 0, 0⟩) :=
  formula_statistics_spec statsTableEx "Formula" (by decide)

/-- C7: `add_formula_column` and `apply_metabolite_mapping` leave their
input table argument unmodified: on both the success and the error path,
the state of the table argument after the call — the first component of
the embedded result — is exactly the argument, rows, columns and cells
alike; the transformed table is returned as a separate value built from
a copy. -/
theorem transforms_preserve_input (parse : String → ParseOutcome)
    (df t : Table) (sc oc fc nc : String) (m : List (String × String)) :
    (add_formula_column parse df sc oc).fst = df ∧
    (apply_metabolite_mapping t m fc nc).fst = t := by
  constructor
  · unfold add_formula_column
    split <;> rfl
  · unfold apply_metabolite_mapping
    split <;> rfl

/-- C8: `create_formula_metabolite_mapping` raises a `ValueError` exactly
when the named formula or name column is absent from the reference
table, and `apply_metabolite_mapping` raises one exactly when the named
formula column is absent from the target table; with the required
columns present neither raises a configuration error. -/
theorem missing_column_configuration_errors (ref tgt : Table)
    (fc mc tf oc : String) (m : List (String × String)) :
    ((fc ∉ ref.cols ∨ mc ∉ ref.cols) ↔
      ∃ e, create_formula_metabolite_mapping ref fc mc = .error e) ∧
    ((tf ∉ tgt.cols) ↔
      ∃ e, (apply_metabolite_mapping tgt m tf oc).snd = .error e) := by
  constructor
  · constructor
    · intro h
      unfold create_formula_metabolite_mapping
      by_cases h1 : fc ∉ ref.cols
      · rw [if_pos h1]
        exact ⟨_, rfl⟩
      · rw [if_neg h1, if_pos (h.resolve_left h1)]
        exact ⟨_, rfl⟩
    · rintro ⟨e, he⟩
      by_contra hcon
      push_neg at hcon
      unfold create_formula_metabolite_mapping at he
      rw [if_neg (not_not_intro hcon.1), if_neg (not_not_intro hcon.2)] at he
      exact Except.noConfusion he
  · constructor
    · intro h
      unfold apply_metabolite_mapping
      rw [if_pos h]
      exact ⟨_, rfl⟩
    · rintro ⟨e, he⟩
      by_contra hcon
      unfold apply_metabolite_mapping at he
      rw [if_neg (not_not_intro hcon)] at he
      exact Except.noConfusion he

/-- Witness for C8: a reference table lacking both columns makes
`create_formula_metabolite_mapping` raise. -/
theorem missing_column_configuration_errors_witness :
    ∃ e, create_formula_metabolite_mapping ⟨["x"], []⟩
      "chemical_formula" "Metabolite name" = .error e :=
  ((missing_column_configuration_errors ⟨["x"], []⟩ ⟨["x"], []⟩
      "chemical_formula" "Metabolite name" "Formula" "Metabolite name" []).1).mp
    (Or.inl (by decide))

theorem applyRow_idem (m : List (String × String)) {fc oc : String}
    (hne : fc ≠ oc) (r : Row) :
    setCell (setCell r oc (mapCell m (getCell r fc))) oc
      (mapCell m (getCell (setCell r oc (mapCell m (getCell r fc))) fc)) =
    setCell r oc (mapCell m (getCell r fc)) := by
  rw [getCell_setCell_ne _ _ hne, setCell_setCell]

theorem applyTransform_idem (t : Table) (m : List (String × String))
    (fc oc : String) (hne : fc ≠ oc) :
    applyTransform (applyTransform t m fc oc) m fc oc =
      applyTransform t m fc oc := by
  unfold applyTransform Table.copy Table.setColumn
  dsimp only
  simp only [Table.mk.injEq]
  constructor
  · by_cases hoc : oc ∈ t.cols
    · simp [hoc]
    · simp [hoc]
  · rw [List.map_map]
    apply List.map_congr_left
    intro r _
    simp only [Function.comp]
    exact applyRow_idem m hne r

/-- C9: applying `apply_metabolite_mapping` twice with the same map is
idempotent whenever the formula column and the (distinct) output name
column are present, because the second application recomputes the output
column from the unchanged formula column and overwrites it with
identical values: `apply (apply t m) m = apply t m`. -/
theorem apply_mapping_idempotent (t : Table) (m : List (String × String))
    (fc oc : String) (hne : fc ≠ oc) (hf : fc ∈ t.cols) :
    ∃ r1, (apply_metabolite_mapping t m fc oc).snd = .ok r1 ∧
      (apply_metabolite_mapping r1 m fc oc).snd = .ok r1 := by
  refine ⟨applyTransform t m fc oc, ?_, ?_⟩
  · unfold apply_metabolite_mapping
    rw [if_neg (not_not_intro hf)]
  · have hf1 : fc ∈ (applyTransform t m fc oc).cols := by
      unfold applyTransform Table.copy Table.setColumn
      dsimp only
      split
      · exact hf
      · exact List.mem_append_left _ hf
    unfold apply_metabolite_mapping
    rw [if_neg (not_not_intro hf1)]
    dsimp only
    rw [applyTransform_idem t m fc oc hne]

/-- Witness for C9 on the spec's example target table. -/
theorem apply_mapping_idempotent_witness :
    ∃ r1, (apply_metabolite_mapping targetTableEx [("C2H6O", "Ethanol")]
        "Formula" "Metabolite name").snd = .ok r1 ∧
      (apply_metabolite_mapping r1 [("C2H6O", "Ethanol")]
        "Formula" "Metabolite name").snd = .ok r1 :=
  apply_mapping_idempotent targetTableEx [("C2H6O", "Ethanol")]
    "Formula" "Metabolite name" (by decide) (by decide)

theorem countP_add_countP_le_length (l : List Row) (p q : Row → Bool)
    (h : ∀ x ∈ l, ¬(p x = true ∧ q x = true)) :
    l.countP p + l.countP q ≤ l.length := by
  induction l with
  | nil => simp
  | cons a l ih =>
    have ha := h a (List.mem_cons_self a l)
    have ihl := ih (fun x hx => h x (List.mem_cons_of_mem a hx))
    simp only [List.countP_cons, List.length_cons]
    by_cases hp : p a = true
    · by_cases hq : q a = true
      · exact absurd ⟨hp, hq⟩ ha
      · simp only [hp, hq, if_true]
        rw [if_neg (by simp [hq])]
        omega
    · by_cases hq : q a = true
      · simp only [hq, if_true]
        rw [if_neg (by simp [hp])]
        omega
      · rw [if_neg (by simp [hp]), if_neg (by simp [hq])]
        omega

/-- C10: the statistics records balance internally: for every table
containing the relevant column, `get_formula_statistics` satisfies
`valid + invalid + error = total` and `get_mapping_statistics` satisfies
`matched + unmatched = total`; every count is a natural number, hence
non-negative. -/
theorem statistics_balance (t u : Table) (fc mc : String)
    (hf : fc ∈ t.cols) (hm : mc ∈ u.cols) :
    (∃ s, get_formula_statistics t fc = .ok s ∧
      s.valid + s.invalid + s.error = s.total) ∧
    (∃ s, get_mapping_statistics u mc = .ok s ∧
      s.matched + s.unmatched = s.total) := by
  constructor
  · unfold get_formula_statistics
    rw [if_neg (not_not_intro hf)]
    refine ⟨_, rfl, ?_⟩
    dsimp only
    have hle : t.rows.countP
        (fun r => decide (getCell r fc = some (Value.vStr "Invalid"))) +
        t.rows.countP
          (fun r => decide (getCell r fc = some (Value.vStr "Error"))) ≤
        t.rows.length := by
      apply countP_add_countP_le_length
      intro r _
      rintro ⟨h1, h2⟩
      rw [decide_eq_true_eq] at h1 h2
      exact absurd (h1.symm.trans h2) (by decide)
    simp only [countLit]
    omega
  · unfold get_mapping_statistics
    rw [if_neg (not_not_intro hm)]
    refine ⟨_, rfl, ?_⟩
    dsimp only
    have hle : notnaCount u mc ≤ u.rows.length := by
      simp only [notnaCount]
      exact List.countP_le_length _
    omega

/-- Witness for C10 on the docstring statistics examples. -/
theorem statistics_balance_witness :
    (∃ s, get_formula_statistics statsTableEx "Formula" = .ok s ∧
      s.valid + s.invalid + s.error = s.total) ∧
    (∃ s, get_mapping_statistics unmatchedTableEx "Metabolite name" = .ok s ∧
      s.matched + s.unmatched = s.total) :=
  statistics_balance statsTableEx unmatchedTableEx "Formula" "Metabolite name"
    (by decide) (by decide)
